import Mathlib

/-!
Shallow embedding of the replication reconciliation engine in
`src/ReplServer.cpp` (class `ReplServer`).

The mutable plot database (`DronePlotDB`, a `std::list<DronePlot>`) is
modelled as a `List DronePlot`; iterators are modelled as positions
(`Nat` indices) into that list.  The skew map (`std::map<int, time_t>
_skew`) is modelled as an association list with `std::map::emplace`
semantics (an `emplace` on a present key is a no-op).  The priority
order returned by `_queue.getLeader()` is an explicit `List String`
parameter.  Machine integers (`unsigned int` ids, `time_t` timestamps)
are modelled as `Nat` / `Int`; `double` latitude/longitude values are
modelled as `Int` since the engine only ever compares them for
equality.

Dereferencing an invalid (past-the-end) iterator is undefined behaviour
in C++; the embedding makes it an explicit `ub` result.
-/

/-- Modelled from the spec (§3 data model): the `DronePlot` record type lives
in `DronePlot.h`/`DronePlot.cpp`, which are not part of the shown source; its
fields and the three status flags used by `ReplServer.cpp` (`DBFLAG_NEW`,
`DBFLAG_DUPE`, `DBFLAG_LEADER`) are taken from §3 of the design document. -/
structure DronePlot where
  drone_id : Nat
  node_id : Nat
  timestamp : Int
  latitude : Int
  longitude : Int
  flagNew : Bool := false
  flagDupe : Bool := false
  flagLeader : Bool := false
deriving Repr, DecidableEq

/-- Textual station tag: the engine compares stations against the priority
order via the constructed key `"ds" + std::to_string(node_id)`. -/
def nodeTag (n : Nat) : String := "ds" ++ toString n

/-- Model of `std::map<int, time_t> _skew`: an association list from
`node_id` to inferred offset. -/
abbrev SkewMap := List (Nat × Int)

/-- Model of `_skew.find(k) != _skew.end()` / reading a present entry. -/
def skewFind (m : SkewMap) (k : Nat) : Option Int :=
  (m.find? (fun e => e.1 == k)).map (·.2)

/-- Model of `_skew[k]` where the key is known present (`operator[]` is only
ever read behind a successful `find` in the source). -/
def skewAt (m : SkewMap) (k : Nat) : Int := (skewFind m k).getD 0

/-- Model of `_skew.emplace(k, v)`: inserts only when `k` is absent. -/
def skewEmplace (m : SkewMap) (k : Nat) (v : Int) : SkewMap :=
  if (skewFind m k).isSome then m else m ++ [(k, v)]

/-- Model of the priority scan shared by `ReplServer::checkSkew`
(lines 291–305) and `ReplServer::deduplicate` (lines 350–362): walk the
priority order; the first entry equal to `ti` (the tag of `i`) orders an
erase of `j` (`some true`), the first entry equal to `tj` orders an erase of
`i` (`some false`); if no entry matches either tag nothing is erased
(`none`). -/
def prioScan : List String → String → String → Option Bool
  | [], _, _ => none
  | s :: rest, ti, tj =>
    if s = ti then some true
    else if s = tj then some false
    else prioScan rest ti tj

/-- Result of one call to `ReplServer::deduplicate`: either undefined
behaviour (a past-the-end iterator dereference), or the returned boolean
together with the database contents after the call. -/
inductive DedupResult where
  | ub : DedupResult
  | res : Bool → List DronePlot → DedupResult
deriving Repr, DecidableEq

/-- Inner loop of `ReplServer::deduplicate` (lines 346–369).  Because of the
post-increment in `for (auto j = i++; ...)`, the loop runs with the outer
iterator already advanced to `i = p + 1` while `j` starts at the old outer
position `p`.  `some r` models an early `return` (or UB); `none` models the
inner loop running to completion (including the dead `size() < 1` break,
which merely falls through to the end of the pass). -/
def dedupInner (order : List String) (s : List DronePlot) (i j : Nat) :
    Option DedupResult :=
  if hj : j < s.length then
    if hi : i < s.length then
      if (s.get ⟨i, hi⟩).timestamp = (s.get ⟨j, hj⟩).timestamp then
        match prioScan order (nodeTag (s.get ⟨i, hi⟩).node_id)
            (nodeTag (s.get ⟨j, hj⟩).node_id) with
        | some true => some (.res false (s.eraseIdx j))
        | some false => some (.res false (s.eraseIdx i))
        | none =>
          if s.length < 1 then none
          else dedupInner order s i (j + 1)
      else
        if s.length < 1 then none
        else dedupInner order s i (j + 1)
    else some .ub
  else none
termination_by s.length - j
decreasing_by all_goals omega

/-- Outer loop of `ReplServer::deduplicate` (lines 343–376): the outer
iterator is left at `p + 1` by the inner loop's initializer and the `i++` of
the outer `for` then moves it to `p + 2`. -/
def dedupOuter (order : List String) (s : List DronePlot) (p : Nat) :
    DedupResult :=
  if p < s.length then
    match dedupInner order s (p + 1) p with
    | some r => r
    | none => if s.length < 1 then .res true s else dedupOuter order s (p + 2)
  else .res true s
termination_by s.length - p
decreasing_by omega

/-- Model of one call to `ReplServer::deduplicate` (lines 339–377). -/
def deduplicate (order : List String) (s : List DronePlot) : DedupResult :=
  dedupOuter order s 0

/-- Model of `setFlags(DBFLAG_LEADER)` on the record at position `k`. -/
def markLeader : List DronePlot → Nat → List DronePlot
  | [], _ => []
  | p :: rest, 0 => { p with flagLeader := true } :: rest
  | p :: rest, k + 1 => p :: markLeader rest k

theorem markLeader_length (s : List DronePlot) (k : Nat) :
    (markLeader s k).length = s.length := by
  induction s generalizing k with
  | nil => rfl
  | cons p rest ih =>
    cases k with
    | zero => rfl
    | succ k => simp [markLeader, ih]

/-- Model of the leader check `if (priorityOrder.front() == "ds" +
to_string(x->node_id)) x->setFlags(DBFLAG_LEADER)` performed on the record at
position `k` (lines 253–257 and 262–265).  `front()` on an empty priority
order is undefined behaviour in C++; the model lets the comparison fail. -/
def leaderCheck (order : List String) (s : List DronePlot) (k : Nat) :
    List DronePlot :=
  match s.get? k with
  | some p =>
    if order.head? = some (nodeTag p.node_id) then markLeader s k else s
  | none => s

theorem leaderCheck_length (order : List String) (s : List DronePlot)
    (k : Nat) : (leaderCheck order s k).length = s.length := by
  cases h : s.get? k <;> simp only [leaderCheck, h]
  split
  · exact markLeader_length s k
  · rfl

/-- Result of one call to `ReplServer::checkSkew`: either undefined behaviour
(a past-the-end iterator dereference), or the returned boolean together with
the database contents and the skew map after the call. -/
inductive SkewResult where
  | ub : SkewResult
  | res : Bool → List DronePlot → SkewMap → SkewResult
deriving Repr, DecidableEq

/-- Intermediate outcome of the inner loop of `ReplServer::checkSkew`:
`ret r` models an early `return` (or UB), `cont s m` models the inner loop
running to completion with the mutated store and skew map. -/
inductive SkewStep where
  | ret : SkewResult → SkewStep
  | cont : List DronePlot → SkewMap → SkewStep
deriving Repr, DecidableEq

/-- Skew-derivation step of `ReplServer::checkSkew` (lines 271–286): the
four-way `else if` chain that records an offset into the skew map for the
node of a co-located, differently-timestamped pair, via `emplace`. -/
def skewUpdate (m : SkewMap) (pi pj : DronePlot) : SkewMap :=
  if (skewFind m pi.node_id).isSome ∧ skewFind m pj.node_id = none then
    skewEmplace m pj.node_id
      ((skewAt m pi.node_id + pi.timestamp) - pj.timestamp)
  else if skewFind m pi.node_id = none ∧ (skewFind m pj.node_id).isSome then
    skewEmplace m pi.node_id
      ((skewAt m pj.node_id + pj.timestamp) - pi.timestamp)
  else if pi.flagLeader then
    skewEmplace m pj.node_id (pi.timestamp - pj.timestamp)
  else if pj.flagLeader then
    skewEmplace m pi.node_id (pj.timestamp - pi.timestamp)
  else m

/-- Inner loop of `ReplServer::checkSkew` (lines 259–314).  As in
`deduplicate`, the initializer `auto j = i++` leaves the outer iterator at
`i = p + 1` while `j` starts at the old outer position `p`, so the loop
compares `i` both with the record before it and with itself.  The leader
check on `j` mutates the store before `i` is dereferenced, so a store whose
only record has been reached (`i` = end) is UB at the `i->latitude` read. -/
def checkSkewInner (order : List String) (s : List DronePlot) (m : SkewMap)
    (i j : Nat) : SkewStep :=
  if hj : j < s.length then
    let s1 := leaderCheck order s j
    if hi : i < s1.length then
      let pi := s1.get ⟨i, hi⟩
      let pj := s1.get ⟨j, by rw [leaderCheck_length]; exact hj⟩
      if pi.latitude = pj.latitude ∧ pi.longitude = pj.longitude then
        if pi.timestamp ≠ pj.timestamp then
          if s1.length < 1 then .cont s1 (skewUpdate m pi pj)
          else checkSkewInner order s1 (skewUpdate m pi pj) i (j + 1)
        else
          match prioScan order (nodeTag pi.node_id) (nodeTag pj.node_id) with
          | some true => .ret (.res false (s1.eraseIdx j) m)
          | some false => .ret (.res false (s1.eraseIdx i) m)
          | none =>
            if s1.length < 1 then .cont s1 m
            else checkSkewInner order s1 m i (j + 1)
      else checkSkewInner order s1 m i (j + 1)
    else .ret .ub
  else .cont s m
termination_by s.length - j
decreasing_by all_goals simp only [leaderCheck_length]; omega

set_option maxHeartbeats 1000000 in
theorem checkSkewInner_cont_length : ∀ (n : Nat) (order : List String)
    (s : List DronePlot) (m : SkewMap) (i j : Nat), s.length - j ≤ n →
    ∀ s2 m2, checkSkewInner order s m i j = .cont s2 m2 →
    s2.length = s.length := by
  intro n
  induction n with
  | zero =>
    intro order s m i j hn s2 m2 hc
    rw [checkSkewInner.eq_def] at hc
    have hj : ¬ (j < s.length) := by omega
    rw [dif_neg hj] at hc
    cases hc
    rfl
  | succ n ih =>
    intro order s m i j hn s2 m2 hc
    by_cases hj : j < s.length
    · rw [checkSkewInner.eq_def] at hc
      rw [dif_pos hj] at hc
      simp only at hc
      have hlen1 : (leaderCheck order s j).length = s.length :=
        leaderCheck_length order s j
      split at hc
      · split at hc
        · split at hc
          · split at hc
            · cases hc; exact hlen1
            · have := ih order (leaderCheck order s j) _ i (j+1) (by omega)
                s2 m2 hc
              omega
          · split at hc
            · cases hc
            · cases hc
            · split at hc
              · cases hc; exact hlen1
              · have := ih order (leaderCheck order s j) _ i (j+1) (by omega)
                  s2 m2 hc
                omega
        · have := ih order (leaderCheck order s j) _ i (j+1) (by omega)
            s2 m2 hc
          omega
      · cases hc
    · rw [checkSkewInner.eq_def, dif_neg hj] at hc
      cases hc
      rfl

/-- Outer loop of `ReplServer::checkSkew` (lines 251–319): the outer
iterator is left at `p + 1` by the inner loop's initializer and the `i++` of
the outer `for` then moves it to `p + 2`. -/
def checkSkewOuter (order : List String) (s : List DronePlot) (m : SkewMap)
    (p : Nat) : SkewResult :=
  if p < s.length then
    match hstep : checkSkewInner order (leaderCheck order s p) m (p + 1) p
        with
    | .ret r => r
    | .cont s2 m2 =>
      if s2.length < 1 then .res true s2 m2
      else checkSkewOuter order s2 m2 (p + 2)
  else .res true s m
termination_by s.length - p
decreasing_by
  have h2 := checkSkewInner_cont_length (s.length + 1) order
    (leaderCheck order s p) m (p + 1) p (by simp [leaderCheck_length]; omega)
    _ _ hstep
  simp only [leaderCheck_length] at h2
  omega

/-- Model of one call to `ReplServer::checkSkew` (lines 247–321). -/
def checkSkew (order : List String) (s : List DronePlot) (m : SkewMap) :
    SkewResult :=
  checkSkewOuter order s m 0

/-- Model of `ReplServer::correctSkew` (lines 323–336): every plot whose
node has a resolved skew entry gets that entry added to its timestamp,
unconditionally, on every call. -/
def correctSkew (s : List DronePlot) (m : SkewMap) : List DronePlot :=
  s.map (fun p =>
    if (skewFind m p.node_id).isSome then
      { p with timestamp := p.timestamp + skewAt m p.node_id }
    else p)

/-- Model of the retry loop `bool run = checkSkew(); while(!run){run =
checkSkew();}` in `ReplServer::replicate` (lines 116–117).  The fuel bounds
the number of passes; `none` means a pass hit UB or the fuel ran out (each
`false`-returning pass has erased one record, so `s.length + 1` passes always
suffice). -/
def skewLoop (order : List String) :
    Nat → List DronePlot → SkewMap → Option (List DronePlot × SkewMap)
  | 0, _, _ => none
  | fuel + 1, s, m =>
    match checkSkew order s m with
    | .ub => none
    | .res true s' m' => some (s', m')
    | .res false s' m' => skewLoop order fuel s' m'

/-- Model of the skew-resolution-and-correction step of one `replicate`
iteration (lines 116–118): run `checkSkew` until it returns `true`, then
apply `correctSkew` once. -/
def resolveAndCorrect (order : List String) (s : List DronePlot)
    (m : SkewMap) : Option (List DronePlot × SkewMap) :=
  (skewLoop order (s.length + 1) s m).map
    (fun sm => (correctSkew sm.1 sm.2, sm.2))

/-- Model of the retry loop `run = deduplicate(); while(!run){run =
deduplicate();}` in `ReplServer::replicate` (lines 119–120). -/
def dedupLoop (order : List String) :
    Nat → List DronePlot → Option (List DronePlot)
  | 0, _ => none
  | fuel + 1, s =>
    match deduplicate order s with
    | .ub => none
    | .res true s' => some s'
    | .res false s' => dedupLoop order fuel s'

/-- Little-endian byte image of `v` on `w` bytes (host byte order of the
reference platform). -/
def bytesLE (w v : Nat) : List Nat := (List.range w).map (fun k => v / 256 ^ k % 256)

/-- Value of a little-endian byte string. -/
def fromLE : List Nat → Nat
  | [] => 0
  | b :: rest => b % 256 + 256 * fromLE rest

/-- Two's-complement image of a signed value on `w` bytes. -/
def toUnsigned (w : Nat) (x : Int) : Nat := (x % (2 : Int) ^ (8 * w)).toNat

/-- Signed value of a `w`-byte two's-complement image. -/
def toSigned (w : Nat) (v : Nat) : Int :=
  if v < 2 ^ (8 * w - 1) then (v : Int) else (v : Int) - (2 : Int) ^ (8 * w)

/-- Modelled from the spec (§4.4): `DronePlot::serialize` and
`DronePlot::getDataSize` live in `DronePlot.cpp`, which is not part of the
shown source.  The spec fixes the wire record as `drone_id (4) | node_id (4)
| timestamp (8) | latitude (8) | longitude (8)` in host (little-endian) byte
order, 32 bytes in total; the `double` fields are modelled through the same
integer codec since the engine never does arithmetic on them. -/
def serializePlot (p : DronePlot) : List Nat :=
  bytesLE 4 p.drone_id ++ bytesLE 4 p.node_id ++
  bytesLE 8 (toUnsigned 8 p.timestamp) ++
  bytesLE 8 (toUnsigned 8 p.latitude) ++ bytesLE 8 (toUnsigned 8 p.longitude)

/-- Modelled from the spec (§4.4): record width `DronePlot::getDataSize()`. -/
def plotDataSize : Nat := 32

/-- Modelled from the spec (§4.4): `DronePlot::deserialize` decodes one
32-byte record, field for field. -/
def deserializePlot (bytes : List Nat) : DronePlot :=
  { drone_id := fromLE (bytes.take 4)
    node_id := fromLE ((bytes.drop 4).take 4)
    timestamp := toSigned 8 (fromLE ((bytes.drop 8).take 8))
    latitude := toSigned 8 (fromLE ((bytes.drop 16).take 8))
    longitude := toSigned 8 (fromLE ((bytes.drop 24).take 8)) }

/-- Modelled from the spec (§4.1): `DronePlotDB::addPlot` (called by
`ReplServer::addSingleDronePlot`) appends a record built from the given
fields and marks it `NEW`. -/
def addPlot (s : List DronePlot) (drone node : Nat) (t lat lon : Int) :
    List DronePlot :=
  s ++ [{ drone_id := drone, node_id := node, timestamp := t,
          latitude := lat, longitude := lon, flagNew := true }]

/-- Model of `ReplServer::addSingleDronePlot` (lines 230–238). -/
def addSingleDronePlot (s : List DronePlot) (bytes : List Nat) :
    List DronePlot :=
  let p := deserializePlot bytes
  addPlot s p.drone_id p.node_id p.timestamp p.latitude p.longitude

/-- Result of `ReplServer::addReplDronePlots`: a thrown `runtime_error`
(`err`), a read past the end of the batch buffer (`ub`, undefined behaviour
in the C++), or the updated database. -/
inductive AddResult where
  | err : AddResult
  | ub : AddResult
  | ok : List DronePlot → AddResult
deriving Repr, DecidableEq

/-- Decode loop of `ReplServer::addReplDronePlots` (lines 214–219): reads
`count` records of 32 bytes starting at offset 4, with no check that the
declared count fits the buffer. -/
def addLoop (data : List Nat) : Nat → Nat → List DronePlot → AddResult
  | 0, _, s => .ok s
  | k + 1, off, s =>
    if off + plotDataSize ≤ data.length then
      addLoop data k (off + plotDataSize)
        (addSingleDronePlot s ((data.drop off).take plotDataSize))
    else .ub

/-- Model of `ReplServer::addReplDronePlots` (lines 197–222). -/
def addReplDronePlots (s : List DronePlot) (data : List Nat) : AddResult :=
  if data.length < 4 then .err
  else if (data.length - 4) % plotDataSize ≠ 0 then .err
  else addLoop data (fromLE (data.take 4)) 4 s

/-- Loop of `ReplServer::queueNewPlots` (lines 144–161): walks the database,
serializing plots that are `NEW` and not `DUPE`, clearing `NEW` and counting
every `NEW` plot (serialized or not); after each element the marshalled size
is checked to be a multiple of the record width (`none` models the throw).
Returns the marshalled payload, the count and the updated database. -/
def queueLoop : List DronePlot → List Nat → Nat →
    Option (List Nat × Nat × List DronePlot)
  | [], data, count => some (data, count, [])
  | p :: rest, data, count =>
    let step :=
      if p.flagNew then
        ((if ¬ p.flagDupe then data ++ serializePlot p else data),
         count + 1, { p with flagNew := false })
      else (data, count, p)
    if step.1.length % plotDataSize ≠ 0 then none
    else (queueLoop rest step.1 step.2.1).map
      (fun r => (r.1, r.2.1, step.2.2 :: r.2.2))

/-- Model of `ReplServer::queueNewPlots` (lines 136–186): yields the count
it returns, the batch handed to `_queue.sendToAll` (`none` when no `NEW`
plot was found and nothing is sent), and the updated database; `none`
overall models the marshalling-size throw. -/
def queueNewPlots (s : List DronePlot) :
    Option (Nat × Option (List Nat) × List DronePlot) :=
  (queueLoop s [] 0).map (fun r =>
    if r.2.1 = 0 then (0, none, r.2.2)
    else (r.2.1, some (bytesLE 4 r.2.1 ++ r.1), r.2.2))


/-- Fuel-indexed executable companion of `checkSkewInner`; agreement with the
loop definition for sufficient fuel is `checkSkewInnerF_eq`, and the wrappers
below let concrete runs be evaluated by the kernel. -/

def checkSkewInnerF (order : List String) :
    Nat → List DronePlot → SkewMap → Nat → Nat → SkewStep
  | 0, s, m, _, _ => .cont s m
  | fuel + 1, s, m, i, j =>
    if hj : j < s.length then
      let s1 := leaderCheck order s j
      if hi : i < s1.length then
        let pi := s1.get ⟨i, hi⟩
        let pj := s1.get ⟨j, by rw [leaderCheck_length]; exact hj⟩
        if pi.latitude = pj.latitude ∧ pi.longitude = pj.longitude then
          if pi.timestamp ≠ pj.timestamp then
            if s1.length < 1 then .cont s1 (skewUpdate m pi pj)
            else checkSkewInnerF order fuel s1 (skewUpdate m pi pj) i (j + 1)
          else
            match prioScan order (nodeTag pi.node_id) (nodeTag pj.node_id) with
            | some true => .ret (.res false (s1.eraseIdx j) m)
            | some false => .ret (.res false (s1.eraseIdx i) m)
            | none =>
              if s1.length < 1 then .cont s1 m
              else checkSkewInnerF order fuel s1 m i (j + 1)
        else checkSkewInnerF order fuel s1 m i (j + 1)
      else .ret .ub
    else .cont s m

theorem checkSkewInnerF_eq (order : List String) :
    ∀ (fuel : Nat) (s : List DronePlot) (m : SkewMap) (i j : Nat),
    s.length - j < fuel →
    checkSkewInnerF order fuel s m i j = checkSkewInner order s m i j := by
  intro fuel
  induction fuel with
  | zero => intro s m i j h; omega
  | succ fuel ih =>
    intro s m i j h
    rw [checkSkewInner.eq_def, checkSkewInnerF]
    by_cases hj : j < s.length
    · simp only [dif_pos hj]
      have hl1 : (leaderCheck order s j).length = s.length :=
        leaderCheck_length order s j
      by_cases hi : i < (leaderCheck order s j).length
      · simp only [dif_pos hi]
        by_cases hll : ((leaderCheck order s j).get ⟨i, hi⟩).latitude =
              ((leaderCheck order s j).get ⟨j, by rw [leaderCheck_length]; exact hj⟩).latitude ∧
            ((leaderCheck order s j).get ⟨i, hi⟩).longitude =
              ((leaderCheck order s j).get ⟨j, by rw [leaderCheck_length]; exact hj⟩).longitude
        · simp only [if_pos hll]
          by_cases hts : ((leaderCheck order s j).get ⟨i, hi⟩).timestamp ≠
              ((leaderCheck order s j).get ⟨j, by rw [leaderCheck_length]; exact hj⟩).timestamp
          · simp only [if_pos hts]
            have hlen : ¬ ((leaderCheck order s j).length < 1) := by omega
            simp only [if_neg hlen]
            exact ih _ _ i (j + 1) (by omega)
          · simp only [if_neg hts]
            rcases hps : prioScan order
                (nodeTag ((leaderCheck order s j).get ⟨i, hi⟩).node_id)
                (nodeTag ((leaderCheck order s j).get
                  ⟨j, by rw [leaderCheck_length]; exact hj⟩).node_id)
              with _ | (_ | _) <;> simp only [hps]
            have hlen : ¬ ((leaderCheck order s j).length < 1) := by omega
            simp only [if_neg hlen]
            exact ih _ _ i (j + 1) (by omega)
        · simp only [if_neg hll]
          exact ih _ _ i (j + 1) (by omega)
      · simp only [dif_neg hi]
    · simp only [dif_neg hj]

def checkSkewOuterF (order : List String) :
    Nat → List DronePlot → SkewMap → Nat → SkewResult
  | 0, s, m, _ => .res true s m
  | fuel + 1, s, m, p =>
    if p < s.length then
      match checkSkewInnerF order (s.length + 1) (leaderCheck order s p) m
          (p + 1) p with
      | .ret r => r
      | .cont s2 m2 =>
        if s2.length < 1 then .res true s2 m2
        else checkSkewOuterF order fuel s2 m2 (p + 2)
    else .res true s m

theorem checkSkewOuterF_eq (order : List String) :
    ∀ (fuel : Nat) (s : List DronePlot) (m : SkewMap) (p : Nat),
    s.length - p < fuel →
    checkSkewOuterF order fuel s m p = checkSkewOuter order s m p := by
  intro fuel
  induction fuel with
  | zero => intro s m p h; omega
  | succ fuel ih =>
    intro s m p h
    rw [checkSkewOuter.eq_def, checkSkewOuterF]
    by_cases hp : p < s.length
    · simp only [if_pos hp]
      rw [checkSkewInnerF_eq order (s.length + 1) (leaderCheck order s p) m
        (p + 1) p (by rw [leaderCheck_length]; omega)]
      rcases hI : checkSkewInner order (leaderCheck order s p) m (p + 1) p
        with r | ⟨s2, m2⟩
      · rfl
      · have hlen : s2.length = s.length := by
          have := checkSkewInner_cont_length (s.length + 1) order
            (leaderCheck order s p) m (p + 1) p
            (by rw [leaderCheck_length]; omega) s2 m2 hI
          rw [leaderCheck_length] at this
          exact this
        by_cases h1 : s2.length < 1
        · simp only [if_pos h1]
        · simp only [if_neg h1]
          exact ih s2 m2 (p + 2) (by omega)
    · simp only [if_neg hp]

def checkSkewF (order : List String) (s : List DronePlot) (m : SkewMap) :
    SkewResult :=
  checkSkewOuterF order (s.length + 1) s m 0

theorem checkSkewF_eq (order : List String) (s : List DronePlot)
    (m : SkewMap) : checkSkewF order s m = checkSkew order s m :=
  checkSkewOuterF_eq order (s.length + 1) s m 0 (by omega)

/-- Fuel-indexed executable companion of `dedupInner`. -/
def dedupInnerF (order : List String) (s : List DronePlot) :
    Nat → Nat → Nat → Option DedupResult
  | 0, _, _ => none
  | fuel + 1, i, j =>
    if hj : j < s.length then
      if hi : i < s.length then
        if (s.get ⟨i, hi⟩).timestamp = (s.get ⟨j, hj⟩).timestamp then
          match prioScan order (nodeTag (s.get ⟨i, hi⟩).node_id)
              (nodeTag (s.get ⟨j, hj⟩).node_id) with
          | some true => some (.res false (s.eraseIdx j))
          | some false => some (.res false (s.eraseIdx i))
          | none =>
            if s.length < 1 then none else dedupInnerF order s fuel i (j + 1)
        else
          if s.length < 1 then none else dedupInnerF order s fuel i (j + 1)
      else some .ub
    else none

theorem dedupInnerF_eq (order : List String) (s : List DronePlot) :
    ∀ (fuel i j : Nat), s.length - j < fuel →
    dedupInnerF order s fuel i j = dedupInner order s i j := by
  intro fuel
  induction fuel with
  | zero => intro i j h; omega
  | succ fuel ih =>
    intro i j h
    rw [dedupInner.eq_def, dedupInnerF]
    by_cases hj : j < s.length
    · simp only [dif_pos hj]
      by_cases hi : i < s.length
      · simp only [dif_pos hi]
        by_cases hts : (s.get ⟨i, hi⟩).timestamp = (s.get ⟨j, hj⟩).timestamp
        · simp only [if_pos hts]
          rcases hps : prioScan order (nodeTag (s.get ⟨i, hi⟩).node_id)
              (nodeTag (s.get ⟨j, hj⟩).node_id) with _ | (_ | _) <;>
            simp only [hps]
          have : ¬ (s.length < 1) := by omega
          simp only [if_neg this]
          exact ih i (j + 1) (by omega)
        · simp only [if_neg hts]
          have : ¬ (s.length < 1) := by omega
          simp only [if_neg this]
          exact ih i (j + 1) (by omega)
      · simp only [dif_neg hi]
    · simp only [dif_neg hj]

/-- Fuel-indexed executable companion of `dedupOuter`. -/
def dedupOuterF (order : List String) (s : List DronePlot) :
    Nat → Nat → DedupResult
  | 0, _ => .res true s
  | fuel + 1, p =>
    if p < s.length then
      match dedupInnerF order s (s.length + 1) (p + 1) p with
      | some r => r
      | none =>
        if s.length < 1 then .res true s else dedupOuterF order s fuel (p + 2)
    else .res true s

theorem dedupOuterF_eq (order : List String) (s : List DronePlot) :
    ∀ (fuel p : Nat), s.length - p < fuel →
    dedupOuterF order s fuel p = dedupOuter order s p := by
  intro fuel
  induction fuel with
  | zero => intro p h; omega
  | succ fuel ih =>
    intro p h
    rw [dedupOuter.eq_def, dedupOuterF]
    by_cases hp : p < s.length
    · simp only [if_pos hp]
      rw [dedupInnerF_eq order s (s.length + 1) (p + 1) p (by omega)]
      rcases hI : dedupInner order s (p + 1) p with _ | r
      · have : ¬ (s.length < 1) := by omega
        simp only [if_neg this]
        exact ih (p + 2) (by omega)
      · rfl
    · simp only [if_neg hp]

/-- Executable companion of `deduplicate`. -/
def deduplicateF (order : List String) (s : List DronePlot) : DedupResult :=
  dedupOuterF order s (s.length + 1) 0

theorem deduplicateF_eq (order : List String) (s : List DronePlot) :
    deduplicateF order s = deduplicate order s :=
  dedupOuterF_eq order s (s.length + 1) 0 (by omega)

/-- Executable companion of `skewLoop`, through `checkSkewF`. -/
def skewLoopF (order : List String) :
    Nat → List DronePlot → SkewMap → Option (List DronePlot × SkewMap)
  | 0, _, _ => none
  | fuel + 1, s, m =>
    match checkSkewF order s m with
    | .ub => none
    | .res true s' m' => some (s', m')
    | .res false s' m' => skewLoopF order fuel s' m'

theorem skewLoopF_eq (order : List String) :
    ∀ (fuel : Nat) (s : List DronePlot) (m : SkewMap),
    skewLoopF order fuel s m = skewLoop order fuel s m := by
  intro fuel
  induction fuel with
  | zero => intro s m; rfl
  | succ fuel ih =>
    intro s m
    rw [skewLoop, skewLoopF, checkSkewF_eq]
    rcases checkSkew order s m with _ | ⟨b, s', m'⟩
    · rfl
    · cases b
      · exact ih s' m'
      · rfl

/-- Executable companion of `resolveAndCorrect`. -/
def resolveAndCorrectF (order : List String) (s : List DronePlot)
    (m : SkewMap) : Option (List DronePlot × SkewMap) :=
  (skewLoopF order (s.length + 1) s m).map
    (fun sm => (correctSkew sm.1 sm.2, sm.2))

theorem resolveAndCorrectF_eq (order : List String) (s : List DronePlot)
    (m : SkewMap) : resolveAndCorrectF order s m = resolveAndCorrect order s m := by
  rw [resolveAndCorrect, resolveAndCorrectF, skewLoopF_eq]

/-- Executable companion of `dedupLoop`, through `deduplicateF`. -/
def dedupLoopF (order : List String) :
    Nat → List DronePlot → Option (List DronePlot)
  | 0, _ => none
  | fuel + 1, s =>
    match deduplicateF order s with
    | .ub => none
    | .res true s' => some s'
    | .res false s' => dedupLoopF order fuel s'

theorem dedupLoopF_eq (order : List String) :
    ∀ (fuel : Nat) (s : List DronePlot),
    dedupLoopF order fuel s = dedupLoop order fuel s := by
  intro fuel
  induction fuel with
  | zero => intro s; rfl
  | succ fuel ih =>
    intro s
    rw [dedupLoop, dedupLoopF, deduplicateF_eq]
    rcases deduplicate order s with _ | ⟨b, s'⟩
    · rfl
    · cases b
      · exact ih s'
      · rfl


theorem skewFind_skewEmplace_of_some (m : SkewMap) (k : Nat) (v : Int)
    (n : Nat) (w : Int) (h : skewFind m n = some w) :
    skewFind (skewEmplace m k v) n = some w := by
  unfold skewEmplace
  split
  · exact h
  · unfold skewFind at h ⊢
    rcases Option.map_eq_some'.mp h with ⟨e, he, hew⟩
    rw [List.find?_append, he]
    simp [hew]

theorem skewFind_skewUpdate_of_some (m : SkewMap) (pi pj : DronePlot)
    (n : Nat) (w : Int) (h : skewFind m n = some w) :
    skewFind (skewUpdate m pi pj) n = some w := by
  unfold skewUpdate
  repeat' split
  all_goals first
    | exact skewFind_skewEmplace_of_some m _ _ n w h
    | exact h

theorem checkSkewInner_skew_preserved :
    ∀ (fuel : Nat) (order : List String) (s : List DronePlot) (m : SkewMap)
      (i j : Nat), s.length - j ≤ fuel →
    ∀ (n : Nat) (w : Int), skewFind m n = some w →
    (∀ b s2 m2, checkSkewInner order s m i j = .ret (.res b s2 m2) →
      skewFind m2 n = some w) ∧
    (∀ s2 m2, checkSkewInner order s m i j = .cont s2 m2 →
      skewFind m2 n = some w) := by
  intro fuel
  induction fuel with
  | zero =>
    intro order s m i j hn n w hm
    have hj : ¬ (j < s.length) := by omega
    constructor
    · intro b s2 m2 hc
      rw [checkSkewInner.eq_def, dif_neg hj] at hc
      cases hc
    · intro s2 m2 hc
      rw [checkSkewInner.eq_def, dif_neg hj] at hc
      cases hc
      exact hm
  | succ fuel ih =>
    intro order s m i j hn n w hm
    by_cases hj : j < s.length
    · constructor
      · intro b s2 m2 hc
        rw [checkSkewInner.eq_def, dif_pos hj] at hc
        simp only at hc
        split at hc
        · split at hc
          · split at hc
            · split at hc
              · cases hc
              · exact (ih order _ _ i (j+1) (by
                  simp only [leaderCheck_length]; omega) n w
                  (skewFind_skewUpdate_of_some m _ _ n w hm)).1 b s2 m2 hc
            · split at hc
              · cases hc; exact hm
              · cases hc; exact hm
              · split at hc
                · cases hc
                · exact (ih order _ _ i (j+1) (by
                    simp only [leaderCheck_length]; omega) n w hm).1 b s2 m2 hc
          · exact (ih order _ _ i (j+1) (by
              simp only [leaderCheck_length]; omega) n w hm).1 b s2 m2 hc
        · cases hc
      · intro s2 m2 hc
        rw [checkSkewInner.eq_def, dif_pos hj] at hc
        simp only at hc
        split at hc
        · split at hc
          · split at hc
            · split at hc
              · cases hc
                exact skewFind_skewUpdate_of_some m _ _ n w hm
              · exact (ih order _ _ i (j+1) (by
                  simp only [leaderCheck_length]; omega) n w
                  (skewFind_skewUpdate_of_some m _ _ n w hm)).2 s2 m2 hc
            · split at hc
              · cases hc
              · cases hc
              · split at hc
                · cases hc; exact hm
                · exact (ih order _ _ i (j+1) (by
                    simp only [leaderCheck_length]; omega) n w hm).2 s2 m2 hc
          · exact (ih order _ _ i (j+1) (by
              simp only [leaderCheck_length]; omega) n w hm).2 s2 m2 hc
        · cases hc
    · constructor
      · intro b s2 m2 hc
        rw [checkSkewInner.eq_def, dif_neg hj] at hc
        cases hc
      · intro s2 m2 hc
        rw [checkSkewInner.eq_def, dif_neg hj] at hc
        cases hc
        exact hm

theorem checkSkewOuter_skew_preserved :
    ∀ (fuel : Nat) (order : List String) (s : List DronePlot) (m : SkewMap)
      (p : Nat), s.length - p ≤ fuel →
    ∀ (n : Nat) (w : Int), skewFind m n = some w →
    ∀ b s' m', checkSkewOuter order s m p = .res b s' m' →
      skewFind m' n = some w := by
  intro fuel
  induction fuel with
  | zero =>
    intro order s m p hn n w hm b s' m' hc
    have hp : ¬ (p < s.length) := by omega
    rw [checkSkewOuter.eq_def, if_neg hp] at hc
    cases hc
    exact hm
  | succ fuel ih =>
    intro order s m p hn n w hm b s' m' hc
    by_cases hp : p < s.length
    · rw [checkSkewOuter.eq_def, if_pos hp] at hc
      rcases hI : checkSkewInner order (leaderCheck order s p) m (p + 1) p
        with r | ⟨s2, m2⟩
      · rw [hI] at hc
        simp only at hc
        rcases r with _ | ⟨b2, s3, m3⟩
        · cases hc
        · cases hc
          exact (checkSkewInner_skew_preserved (s.length + 1) order
            (leaderCheck order s p) m (p + 1) p
            (by simp only [leaderCheck_length]; omega) n w hm).1 b s' m' hI
      · rw [hI] at hc
        simp only at hc
        have hm2 : skewFind m2 n = some w :=
          (checkSkewInner_skew_preserved (s.length + 1) order
            (leaderCheck order s p) m (p + 1) p
            (by simp only [leaderCheck_length]; omega) n w hm).2 s2 m2 hI
        have hlen : s2.length = s.length := by
          have := checkSkewInner_cont_length (s.length + 1) order
            (leaderCheck order s p) m (p + 1) p
            (by simp only [leaderCheck_length]; omega) s2 m2 hI
          simpa [leaderCheck_length] using this
        split at hc
        · cases hc; exact hm2
        · exact ih order s2 m2 (p + 2) (by omega) n w hm2 b s' m' hc
    · rw [checkSkewOuter.eq_def, if_neg hp] at hc
      cases hc
      exact hm

theorem correctSkew_shift (s : List DronePlot) (m : SkewMap) (k : Nat)
    (hk : k < s.length) (v : Int)
    (h : skewFind m ((s.get ⟨k, hk⟩).node_id) = some v) :
    ∃ hk2 : k < (correctSkew s m).length,
      ((correctSkew s m).get ⟨k, hk2⟩).timestamp =
        (s.get ⟨k, hk⟩).timestamp + v := by
  have hk2 : k < (correctSkew s m).length := by
    simpa [correctSkew] using hk
  refine ⟨hk2, ?_⟩
  have : (correctSkew s m).get ⟨k, hk2⟩ =
      (fun p => if (skewFind m p.node_id).isSome then
        { p with timestamp := p.timestamp + skewAt m p.node_id }
      else p) (s.get ⟨k, hk⟩) := by
    simp [correctSkew]
  rw [this]
  simp only [List.get_eq_getElem] at h
  simp [skewAt, h]


theorem dedupInner_ne_some_ub :
    ∀ (fuel : Nat) (order : List String) (s : List DronePlot) (i j : Nat),
    s.length - j ≤ fuel → i < s.length →
    dedupInner order s i j ≠ some .ub := by
  intro fuel
  induction fuel with
  | zero =>
    intro order s i j hn hi hc
    have hj : ¬ (j < s.length) := by omega
    rw [dedupInner.eq_def, dif_neg hj] at hc
    cases hc
  | succ fuel ih =>
    intro order s i j hn hi hc
    by_cases hj : j < s.length
    · rw [dedupInner.eq_def, dif_pos hj, dif_pos hi] at hc
      split at hc
      · split at hc
        · cases hc
        · cases hc
        · split at hc
          · cases hc
          · exact ih order s i (j + 1) (by omega) hi hc
      · split at hc
        · cases hc
        · exact ih order s i (j + 1) (by omega) hi hc
    · rw [dedupInner.eq_def, dif_neg hj] at hc
      cases hc

theorem dedupOuter_even_ne_ub :
    ∀ (fuel : Nat) (order : List String) (s : List DronePlot) (p : Nat),
    s.length - p ≤ fuel → Even s.length → Even p →
    dedupOuter order s p ≠ .ub := by
  intro fuel
  induction fuel with
  | zero =>
    intro order s p hn hs hp hc
    have h : ¬ (p < s.length) := by omega
    rw [dedupOuter.eq_def, if_neg h] at hc
    cases hc
  | succ fuel ih =>
    intro order s p hn hs hp hc
    by_cases h : p < s.length
    · rw [dedupOuter.eq_def, if_pos h] at hc
      have hi : p + 1 < s.length := by
        rcases hs with ⟨a, ha⟩
        rcases hp with ⟨b, hb⟩
        omega
      rcases hI : dedupInner order s (p + 1) p with _ | r
      · rw [hI] at hc
        simp only at hc
        split at hc
        · cases hc
        · exact ih order s (p + 2) (by omega) hs (by
            rcases hp with ⟨b, hb⟩; exact ⟨b + 1, by omega⟩) hc
      · rw [hI] at hc
        simp only at hc
        cases hc
        exact dedupInner_ne_some_ub (s.length + 1) order s (p + 1) p
          (by omega) hi hI
    · rw [dedupOuter.eq_def, if_neg h] at hc
      cases hc

theorem checkSkewInner_ne_ret_ub :
    ∀ (fuel : Nat) (order : List String) (s : List DronePlot) (m : SkewMap)
      (i j : Nat), s.length - j ≤ fuel → i < s.length →
    checkSkewInner order s m i j ≠ .ret .ub := by
  intro fuel
  induction fuel with
  | zero =>
    intro order s m i j hn hi hc
    have hj : ¬ (j < s.length) := by omega
    rw [checkSkewInner.eq_def, dif_neg hj] at hc
    cases hc
  | succ fuel ih =>
    intro order s m i j hn hi hc
    by_cases hj : j < s.length
    · rw [checkSkewInner.eq_def, dif_pos hj] at hc
      simp only at hc
      have hi1 : i < (leaderCheck order s j).length := by
        rw [leaderCheck_length]; exact hi
      rw [dif_pos hi1] at hc
      have hlen : (leaderCheck order s j).length = s.length :=
        leaderCheck_length order s j
      split at hc
      · split at hc
        · split at hc
          · cases hc
          · exact ih order _ _ i (j + 1) (by omega) (by omega) hc
        · split at hc
          · cases hc
          · cases hc
          · split at hc
            · cases hc
            · exact ih order _ _ i (j + 1) (by omega) (by omega) hc
      · exact ih order _ _ i (j + 1) (by omega) (by omega) hc
    · rw [checkSkewInner.eq_def, dif_neg hj] at hc
      cases hc

theorem checkSkewOuter_even_ne_ub :
    ∀ (fuel : Nat) (order : List String) (s : List DronePlot) (m : SkewMap)
      (p : Nat), s.length - p ≤ fuel → Even s.length → Even p →
    checkSkewOuter order s m p ≠ .ub := by
  intro fuel
  induction fuel with
  | zero =>
    intro order s m p hn hs hp hc
    have h : ¬ (p < s.length) := by omega
    rw [checkSkewOuter.eq_def, if_neg h] at hc
    cases hc
  | succ fuel ih =>
    intro order s m p hn hs hp hc
    by_cases h : p < s.length
    · rw [checkSkewOuter.eq_def, if_pos h] at hc
      have hi : p + 1 < s.length := by
        rcases hs with ⟨a, ha⟩
        rcases hp with ⟨b, hb⟩
        omega
      rcases hI : checkSkewInner order (leaderCheck order s p) m (p + 1) p
        with r | ⟨s2, m2⟩
      · rw [hI] at hc
        simp only at hc
        cases hc
        exact checkSkewInner_ne_ret_ub (s.length + 1) order
          (leaderCheck order s p) m (p + 1) p
          (by rw [leaderCheck_length]; omega)
          (by rw [leaderCheck_length]; exact hi) hI
      · rw [hI] at hc
        simp only at hc
        have hlen : s2.length = s.length := by
          have := checkSkewInner_cont_length (s.length + 1) order
            (leaderCheck order s p) m (p + 1) p
            (by rw [leaderCheck_length]; omega) s2 m2 hI
          simpa [leaderCheck_length] using this
        split at hc
        · cases hc
        · exact ih order s2 m2 (p + 2) (by omega) (by rw [hlen]; exact hs)
            (by rcases hp with ⟨b, hb⟩; exact ⟨b + 1, by omega⟩) hc
    · rw [checkSkewOuter.eq_def, if_neg h] at hc
      cases hc


theorem serializePlot_length (p : DronePlot) :
    (serializePlot p).length = plotDataSize := by
  simp [serializePlot, bytesLE, plotDataSize]

theorem queueLoop_spec :
    ∀ (s : List DronePlot) (data : List Nat) (count : Nat),
    data.length % plotDataSize = 0 →
    queueLoop s data count = some
      (data ++
        ((s.filter (fun p => p.flagNew && ! p.flagDupe)).map serializePlot).flatten,
       count + (s.filter (fun p => p.flagNew)).length,
       s.map (fun p => if p.flagNew then { p with flagNew := false } else p)) := by
  intro s
  induction s with
  | nil => intro data count h; simp [queueLoop]
  | cons p rest ih =>
    intro data count h
    by_cases hn : p.flagNew
    · by_cases hd : p.flagDupe
      · rw [queueLoop]
        simp only [hn, hd, ite_true, ite_false, not_true, Bool.not_true,
          Bool.and_false]
        rw [if_neg (by simpa using h)]
        rw [ih data (count + 1) h]
        simp [hn, hd, List.filter_cons, Nat.add_comm, Nat.add_left_comm,
          Nat.add_assoc]
      · rw [queueLoop]
        have hmod : (data ++ serializePlot p).length % plotDataSize = 0 := by
          simp only [List.length_append, serializePlot_length]
          simp only [plotDataSize] at h ⊢
          omega
        rw [Bool.not_eq_true] at hd
        simp only [hn, hd, ite_true, Bool.false_eq_true, not_false_eq_true,
          Bool.not_false, Bool.and_true]
        rw [if_neg (by simpa using hmod)]
        rw [ih (data ++ serializePlot p) (count + 1) hmod]
        simp [hn, hd, List.filter_cons, Nat.add_comm, Nat.add_left_comm,
          Nat.add_assoc]
    · rw [queueLoop]
      rw [Bool.not_eq_true] at hn
      simp only [hn, Bool.false_eq_true, ite_false, Bool.false_and]
      rw [if_neg (by simpa using h)]
      rw [ih data count h]
      simp [hn, List.filter_cons]


theorem addSingleDronePlot_eq (s : List DronePlot) (bytes : List Nat) :
    addSingleDronePlot s bytes =
      s ++ [{ deserializePlot bytes with flagNew := true }] := rfl

theorem addLoop_ok :
    ∀ (k : Nat) (data : List Nat) (off : Nat) (s : List DronePlot),
    off + plotDataSize * k ≤ data.length →
    addLoop data k off s = .ok (s ++ (List.range k).map (fun r =>
      { deserializePlot ((data.drop (off + plotDataSize * r)).take plotDataSize)
        with flagNew := true })) := by
  intro k
  induction k with
  | zero => intro data off s h; simp [addLoop]
  | succ k ih =>
    intro data off s h
    rw [addLoop]
    rw [if_pos (by simp only [plotDataSize] at h ⊢; omega)]
    rw [addSingleDronePlot_eq]
    rw [ih data (off + plotDataSize) (s ++ [_]) (by
      simp only [plotDataSize] at h ⊢; omega)]
    congr 1
    rw [List.range_succ_eq_map]
    simp [List.map_map, Function.comp, Nat.mul_add, Nat.add_assoc,
      Nat.add_comm, Nat.add_left_comm, Nat.mul_comm, Nat.mul_left_comm]

theorem addLoop_ub :
    ∀ (k : Nat) (data : List Nat) (off : Nat) (s : List DronePlot),
    data.length < off + plotDataSize * k → 1 ≤ k →
    addLoop data k off s = .ub := by
  intro k
  induction k with
  | zero => intro data off s h hk; omega
  | succ k ih =>
    intro data off s h _
    rw [addLoop]
    by_cases hfit : off + plotDataSize ≤ data.length
    · rw [if_pos hfit]
      have hk : 1 ≤ k := by
        by_contra hk0
        simp only [plotDataSize] at h hfit
        omega
      exact ih data (off + plotDataSize) _ (by
        simp only [plotDataSize] at h ⊢; omega) hk
    · rw [if_neg hfit]

theorem addLoop_ne_err :
    ∀ (k : Nat) (data : List Nat) (off : Nat) (s : List DronePlot),
    addLoop data k off s ≠ .err := by
  intro k
  induction k with
  | zero => intro data off s hc; cases hc
  | succ k ih =>
    intro data off s hc
    rw [addLoop] at hc
    split at hc
    · exact ih data _ _ hc
    · cases hc


theorem prioScan_none_iff (order : List String) (ti tj : String) :
    prioScan order ti tj = none ↔ ti ∉ order ∧ tj ∉ order := by
  induction order with
  | nil => simp [prioScan]
  | cons s rest ih =>
    rw [prioScan]
    by_cases h1 : s = ti
    · subst h1
      simp [List.mem_cons]
    · rw [if_neg h1]
      by_cases h2 : s = tj
      · subst h2
        simp [List.mem_cons]
      · rw [if_neg h2]
        rw [ih]
        simp only [List.mem_cons]
        constructor
        · rintro ⟨hi, hj⟩
          exact ⟨by rintro (rfl | hmem); exact h1 rfl; exact hi hmem,
            by rintro (rfl | hmem); exact h2 rfl; exact hj hmem⟩
        · rintro ⟨hi, hj⟩
          exact ⟨fun hmem => hi (Or.inr hmem), fun hmem => hj (Or.inr hmem)⟩


theorem prioScan_some_true_iff (order : List String) (ti tj : String) :
    prioScan order ti tj = some true ↔
      ti ∈ order ∧ order.indexOf ti ≤ order.indexOf tj := by
  induction order with
  | nil => simp [prioScan]
  | cons s rest ih =>
    rw [prioScan]
    by_cases h1 : s = ti
    · subst h1
      simp [List.indexOf_cons]
    · rw [if_neg h1]
      have hbe1 : (s == ti) = false := beq_eq_false_iff_ne.mpr h1
      by_cases h2 : s = tj
      · subst h2
        rw [if_pos rfl]
        simp [List.indexOf_cons, hbe1, List.mem_cons]
      · rw [if_neg h2]
        have hbe2 : (s == tj) = false := beq_eq_false_iff_ne.mpr h2
        rw [ih]
        simp only [List.indexOf_cons, hbe1, hbe2, cond_false, List.mem_cons]
        constructor
        · rintro ⟨hmem, hle⟩
          exact ⟨Or.inr hmem, by omega⟩
        · rintro ⟨hmem, hle⟩
          rcases hmem with rfl | hmem
          · exact absurd rfl h1
          · exact ⟨hmem, by omega⟩

theorem prioScan_some_false_iff (order : List String) (ti tj : String) :
    prioScan order ti tj = some false ↔
      tj ∈ order ∧ order.indexOf tj < order.indexOf ti := by
  induction order with
  | nil => simp [prioScan]
  | cons s rest ih =>
    rw [prioScan]
    by_cases h1 : s = ti
    · subst h1
      simp only [if_pos rfl, List.indexOf_cons, beq_self_eq_true, cond_true]
      constructor
      · intro h; cases h
      · rintro ⟨hmem, hlt⟩
        omega
    · rw [if_neg h1]
      have hbe1 : (s == ti) = false := beq_eq_false_iff_ne.mpr h1
      by_cases h2 : s = tj
      · subst h2
        rw [if_pos rfl]
        simp [List.indexOf_cons, hbe1, List.mem_cons]
      · rw [if_neg h2]
        have hbe2 : (s == tj) = false := beq_eq_false_iff_ne.mpr h2
        rw [ih]
        simp only [List.indexOf_cons, hbe1, hbe2, cond_false, List.mem_cons]
        constructor
        · rintro ⟨hmem, hlt⟩
          exact ⟨Or.inr hmem, by omega⟩
        · rintro ⟨hmem, hlt⟩
          rcases hmem with rfl | hmem
          · exact absurd rfl h2
          · exact ⟨hmem, by omega⟩

theorem dedup_two (order : List String) (a b : DronePlot)
    (hts : a.timestamp = b.timestamp) :
    deduplicate order [a, b] =
      match prioScan order (nodeTag b.node_id) (nodeTag a.node_id) with
      | some true => .res false [b]
      | some false => .res false [a]
      | none => .res true [a, b] := by
  rw [← deduplicateF_eq]
  rcases hscan : prioScan order (nodeTag b.node_id) (nodeTag a.node_id)
    with _ | (_ | _)
  · have hb : nodeTag b.node_id ∉ order :=
      ((prioScan_none_iff _ _ _).mp hscan).1
    have hself : prioScan order (nodeTag b.node_id) (nodeTag b.node_id) =
        none := by
      rw [prioScan_none_iff]
      exact ⟨hb, hb⟩
    simp [deduplicateF, dedupOuterF, dedupInnerF, hts, hscan, hself,
      List.eraseIdx]
  · simp [deduplicateF, dedupOuterF, dedupInnerF, hts, hscan, List.eraseIdx]
  · simp [deduplicateF, dedupOuterF, dedupInnerF, hts, hscan, List.eraseIdx]


theorem checkSkew_two_equal (order : List String) (a b : DronePlot)
    (m : SkewMap) (hlat : a.latitude = b.latitude)
    (hlon : a.longitude = b.longitude) (hts : a.timestamp = b.timestamp) :
    checkSkew order [a, b] m =
      match prioScan order (nodeTag b.node_id) (nodeTag a.node_id) with
      | some true => .res false [b] m
      | some false => .res false
          [if order.head? = some (nodeTag a.node_id)
           then { a with flagLeader := true } else a] m
      | none => .res true [a, b] m := by
  rw [← checkSkewF_eq]
  rcases hscan : prioScan order (nodeTag b.node_id) (nodeTag a.node_id)
    with _ | (_ | _)
  · have hnone := (prioScan_none_iff order _ _).mp hscan
    have hfa : ¬ (order.head? = some (nodeTag a.node_id)) := by
      cases order with
      | nil => simp
      | cons o rest =>
        simp only [List.head?_cons, Option.some_inj]
        intro h
        exact hnone.2 (h ▸ List.mem_cons_self o rest)
    have hfb : ¬ (order.head? = some (nodeTag b.node_id)) := by
      cases order with
      | nil => simp
      | cons o rest =>
        simp only [List.head?_cons, Option.some_inj]
        intro h
        exact hnone.1 (h ▸ List.mem_cons_self o rest)
    have hself : prioScan order (nodeTag b.node_id) (nodeTag b.node_id) =
        none := (prioScan_none_iff order _ _).mpr ⟨hnone.1, hnone.1⟩
    simp [checkSkewF, checkSkewOuterF, checkSkewInnerF, leaderCheck,
      markLeader, hlat, hlon, hts, hscan, hself, hfa, hfb]
  · by_cases hfa : order.head? = some (nodeTag a.node_id) <;>
      simp [checkSkewF, checkSkewOuterF, checkSkewInnerF, leaderCheck,
        markLeader, hlat, hlon, hts, hscan, hfa, List.eraseIdx]
  · by_cases hfa : order.head? = some (nodeTag a.node_id) <;>
      simp [checkSkewF, checkSkewOuterF, checkSkewInnerF, leaderCheck,
        markLeader, hlat, hlon, hts, hscan, hfa, List.eraseIdx]


theorem nodeTag_one : nodeTag 1 = "ds1" := rfl
theorem nodeTag_two : nodeTag 2 = "ds2" := rfl

def c8Q0 : DronePlot :=
  { drone_id := 1, node_id := 1, timestamp := 100, latitude := 5, longitude := 6 }
def c8Q1 : DronePlot :=
  { drone_id := 1, node_id := 7, timestamp := 30, latitude := 9, longitude := 9 }
def c8Q2 : DronePlot :=
  { drone_id := 1, node_id := 2, timestamp := 80, latitude := 5, longitude := 6 }
def c8Q3 : DronePlot :=
  { drone_id := 1, node_id := 8, timestamp := 40, latitude := 11, longitude := 11 }


theorem dedupInner_erase_length :
    ∀ (fuel : Nat) (order : List String) (s : List DronePlot) (i j : Nat),
    s.length - j ≤ fuel →
    ∀ b s', dedupInner order s i j = some (.res b s') →
    b = false ∧ s'.length + 1 = s.length := by
  intro fuel
  induction fuel with
  | zero =>
    intro order s i j hn b s' hc
    have hj : ¬ (j < s.length) := by omega
    rw [dedupInner.eq_def, dif_neg hj] at hc
    cases hc
  | succ fuel ih =>
    intro order s i j hn b s' hc
    by_cases hj : j < s.length
    · rw [dedupInner.eq_def, dif_pos hj] at hc
      by_cases hi : i < s.length
      · rw [dif_pos hi] at hc
        split at hc
        · split at hc
          · cases hc
            refine ⟨rfl, ?_⟩
            rw [List.length_eraseIdx, if_pos hj]
            omega
          · cases hc
            refine ⟨rfl, ?_⟩
            rw [List.length_eraseIdx, if_pos hi]
            omega
          · split at hc
            · cases hc
            · exact ih order s i (j + 1) (by omega) b s' hc
        · split at hc
          · cases hc
          · exact ih order s i (j + 1) (by omega) b s' hc
      · rw [dif_neg hi] at hc
        cases hc
    · rw [dedupInner.eq_def, dif_neg hj] at hc
      cases hc

theorem dedupOuter_erase_length :
    ∀ (fuel : Nat) (order : List String) (s : List DronePlot) (p : Nat),
    s.length - p ≤ fuel →
    ∀ s', dedupOuter order s p = .res false s' → s'.length + 1 = s.length := by
  intro fuel
  induction fuel with
  | zero =>
    intro order s p hn s' hc
    have hp : ¬ (p < s.length) := by omega
    rw [dedupOuter.eq_def, if_neg hp] at hc
    cases hc
  | succ fuel ih =>
    intro order s p hn s' hc
    by_cases hp : p < s.length
    · rw [dedupOuter.eq_def, if_pos hp] at hc
      rcases hI : dedupInner order s (p + 1) p with _ | r
      · rw [hI] at hc
        simp only at hc
        split at hc
        · cases hc
        · exact ih order s (p + 2) (by omega) s' hc
      · rw [hI] at hc
        simp only at hc
        cases hc
        exact (dedupInner_erase_length (s.length + 1) order s (p + 1) p
          (by omega) false s' hI).2
    · rw [dedupOuter.eq_def, if_neg hp] at hc
      cases hc

theorem dedupInner_none_facts :
    ∀ (fuel : Nat) (order : List String) (s : List DronePlot) (i j : Nat),
    s.length - j ≤ fuel →
    dedupInner order s i j = none →
    ∀ (j2 : Nat) (hj2 : j2 < s.length) (hi : i < s.length), j ≤ j2 →
    (s.get ⟨i, hi⟩).timestamp = (s.get ⟨j2, hj2⟩).timestamp →
    prioScan order (nodeTag (s.get ⟨i, hi⟩).node_id)
      (nodeTag (s.get ⟨j2, hj2⟩).node_id) = none := by
  intro fuel
  induction fuel with
  | zero =>
    intro order s i j hn hc j2 hj2 hi hj2ge hts
    omega
  | succ fuel ih =>
    intro order s i j hn hc j2 hj2 hi hj2ge hts
    by_cases hj : j < s.length
    · rw [dedupInner.eq_def, dif_pos hj, dif_pos hi] at hc
      by_cases hje : j2 = j
      · subst hje
        split at hc
        · rcases hps : prioScan order (nodeTag (s.get ⟨i, hi⟩).node_id)
              (nodeTag (s.get ⟨j2, hj⟩).node_id) with _ | b
          · rfl
          · rw [hps] at hc
            cases b <;> simp only at hc <;> cases hc
        · rename_i hne
          exact absurd hts hne
      · have hgt : j + 1 ≤ j2 := by omega
        split at hc
        · rcases hps : prioScan order (nodeTag (s.get ⟨i, hi⟩).node_id)
              (nodeTag (s.get ⟨j, hj⟩).node_id) with _ | b
          · rw [hps] at hc
            simp only at hc
            split at hc
            · omega
            · exact ih order s i (j + 1) (by omega) hc j2 hj2 hi hgt hts
          · rw [hps] at hc
            cases b <;> simp only at hc <;> cases hc
        · split at hc
          · omega
          · exact ih order s i (j + 1) (by omega) hc j2 hj2 hi hgt hts
    · omega

theorem dedupInner_none_inbound :
    ∀ (order : List String) (s : List DronePlot) (i j : Nat), j < s.length →
    dedupInner order s i j = none → i < s.length := by
  intro order s i j hj hc
  by_cases hi : i < s.length
  · exact hi
  · rw [dedupInner.eq_def, dif_pos hj, dif_neg hi] at hc
    cases hc

theorem dedupOuter_true_facts :
    ∀ (fuel : Nat) (order : List String) (s : List DronePlot) (p : Nat),
    s.length - p ≤ fuel →
    ∀ s', dedupOuter order s p = .res true s' →
    s' = s ∧
    ∀ (q j2 : Nat) (hq : q + 1 < s.length) (hj2 : j2 < s.length),
      p ≤ q → Even (q - p) → q ≤ j2 →
      (s.get ⟨q + 1, hq⟩).timestamp = (s.get ⟨j2, hj2⟩).timestamp →
      prioScan order (nodeTag (s.get ⟨q + 1, hq⟩).node_id)
        (nodeTag (s.get ⟨j2, hj2⟩).node_id) = none := by
  intro fuel
  induction fuel with
  | zero =>
    intro order s p hn s' hc
    have hp : ¬ (p < s.length) := by omega
    rw [dedupOuter.eq_def, if_neg hp] at hc
    cases hc
    exact ⟨rfl, by intro q j2 hq hj2 hpq _ _ _; omega⟩
  | succ fuel ih =>
    intro order s p hn s' hc
    by_cases hp : p < s.length
    · rw [dedupOuter.eq_def, if_pos hp] at hc
      rcases hI : dedupInner order s (p + 1) p with _ | r
      · rw [hI] at hc
        simp only at hc
        split at hc
        · cases hc
          exact ⟨rfl, by intro q j2 hq hj2 hpq _ _ _; omega⟩
        · obtain ⟨hs', hfacts⟩ := ih order s (p + 2) (by omega) s' hc
          refine ⟨hs', ?_⟩
          intro q j2 hq hj2 hpq heven hqj hts
          by_cases hqp : q = p
          · subst hqp
            exact dedupInner_none_facts (s.length + 1) order s (q + 1) q
              (by omega) hI j2 hj2 hq hqj hts
          · have hge : p + 2 ≤ q := by
              rcases heven with ⟨c, hcc⟩
              omega
            exact hfacts q j2 hq hj2 hge (by
              rcases heven with ⟨c, hcc⟩
              exact ⟨c - 1, by omega⟩) hqj hts
      · rw [hI] at hc
        simp only at hc
        cases hc
        have := (dedupInner_erase_length (s.length + 1) order s (p + 1) p
          (by omega) true s' hI).1
        cases this
    · rw [dedupOuter.eq_def, if_neg hp] at hc
      cases hc
      exact ⟨rfl, by intro q j2 hq hj2 hpq _ _ _; omega⟩

def TimeSorted (s : List DronePlot) : Prop :=
  List.Pairwise (fun p q => p.timestamp ≤ q.timestamp) s

theorem get_idx_congr (s : List DronePlot) (x y : Nat) (hx : x < s.length)
    (hy : y < s.length) (h : x = y) : s.get ⟨x, hx⟩ = s.get ⟨y, hy⟩ := by
  subst h
  rfl

theorem timeSorted_mono (s : List DronePlot) (hs : TimeSorted s)
    (x y : Nat) (hx : x < s.length) (hy : y < s.length) (hxy : x ≤ y) :
    (s.get ⟨x, hx⟩).timestamp ≤ (s.get ⟨y, hy⟩).timestamp := by
  rcases Nat.lt_or_ge x y with h | h
  · exact List.pairwise_iff_get.mp hs ⟨x, hx⟩ ⟨y, hy⟩ h
  · have : x = y := by omega
    rw [get_idx_congr s x y hx hy this]

theorem sorted_no_pair_aux (order : List String) (s : List DronePlot)
    (hsort : TimeSorted s)
    (hadj : ∀ (k : Nat) (hk1 : k < s.length) (hk : k + 1 < s.length),
      (s.get ⟨k, hk1⟩).timestamp = (s.get ⟨k + 1, hk⟩).timestamp →
      nodeTag (s.get ⟨k, hk1⟩).node_id ∉ order ∧
      nodeTag (s.get ⟨k + 1, hk⟩).node_id ∉ order)
    (a b : Nat) (ha : a < s.length) (hb : b < s.length) (hab : a < b)
    (hts : (s.get ⟨a, ha⟩).timestamp = (s.get ⟨b, hb⟩).timestamp) :
    nodeTag (s.get ⟨a, ha⟩).node_id ∉ order ∧
    nodeTag (s.get ⟨b, hb⟩).node_id ∉ order := by
  have ha1 : a + 1 < s.length := by omega
  have hts1 : (s.get ⟨a, ha⟩).timestamp = (s.get ⟨a + 1, ha1⟩).timestamp := by
    have h1 := timeSorted_mono s hsort a (a + 1) ha ha1 (by omega)
    have h2 := timeSorted_mono s hsort (a + 1) b ha1 hb (by omega)
    omega
  have hfirst := hadj a ha ha1 hts1
  have hbm : b - 1 < s.length := by omega
  have hbe : b - 1 + 1 = b := by omega
  have htsb : (s.get ⟨b - 1, hbm⟩).timestamp =
      (s.get ⟨b - 1 + 1, by omega⟩).timestamp := by
    have h1 := timeSorted_mono s hsort a (b - 1) ha hbm (by omega)
    have h2 := timeSorted_mono s hsort (b - 1) b hbm hb (by omega)
    have h3 : (s.get ⟨b - 1 + 1, by omega⟩) = s.get ⟨b, hb⟩ :=
      get_idx_congr s _ _ _ _ hbe
    rw [h3]
    omega
  have hlast := hadj (b - 1) hbm (by omega) htsb
  have h3 : (s.get ⟨b - 1 + 1, by omega⟩) = s.get ⟨b, hb⟩ :=
    get_idx_congr s _ _ _ _ hbe
  rw [h3] at hlast
  exact ⟨hfirst.1, hlast.2⟩

/-!
Concrete inputs and predicates used by the claim theorems below.
-/

def c1Follower : DronePlot :=
  { drone_id := 1, node_id := 2, timestamp := 80, latitude := 5, longitude := 6 }

def c1Leader : DronePlot :=
  { drone_id := 1, node_id := 1, timestamp := 100, latitude := 5, longitude := 6 }

def c2Survivor : DronePlot :=
  { drone_id := 3, node_id := 9, timestamp := 5, latitude := 0, longitude := 0 }

def c2Removed : DronePlot :=
  { drone_id := 4, node_id := 1, timestamp := 12, latitude := 7, longitude := 8 }

def c3A : DronePlot :=
  { drone_id := 1, node_id := 3, timestamp := 50, latitude := 0, longitude := 0 }

def c3B : DronePlot :=
  { drone_id := 1, node_id := 4, timestamp := 60, latitude := 1, longitude := 1 }

def c4P0 : DronePlot :=
  { drone_id := 1, node_id := 1, timestamp := 5, latitude := 0, longitude := 0 }

def c4P1 : DronePlot :=
  { drone_id := 1, node_id := 3, timestamp := 7, latitude := 1, longitude := 1 }

def c4P2 : DronePlot :=
  { drone_id := 1, node_id := 1, timestamp := 5, latitude := 0, longitude := 0 }

def c4P3 : DronePlot :=
  { drone_id := 1, node_id := 4, timestamp := 9, latitude := 2, longitude := 2 }

/-- Two store positions form a resolvable duplicate pair in the sense of the
spec: distinct positions holding records with equal timestamps, at least one
of whose stations appears in the priority order. -/
def IsResolvableDupPair (order : List String) (s : List DronePlot)
    (a b : Nat) : Prop :=
  a ≠ b ∧ ∃ pa pb, s.get? a = some pa ∧ s.get? b = some pb ∧
    pa.timestamp = pb.timestamp ∧
    (nodeTag pa.node_id ∈ order ∨ nodeTag pb.node_id ∈ order)

def c5High : DronePlot :=
  { drone_id := 2, node_id := 5, timestamp := 4, latitude := 1, longitude := 1 }

def c5Removed : DronePlot :=
  { drone_id := 2, node_id := 1, timestamp := 11, latitude := 2, longitude := 2 }

def c6NewPlot : DronePlot :=
  { drone_id := 1, node_id := 1, timestamp := 1, latitude := 0, longitude := 0,
    flagNew := true }

def c6DupePlot : DronePlot :=
  { drone_id := 1, node_id := 2, timestamp := 2, latitude := 0, longitude := 0,
    flagNew := true, flagDupe := true }

def c8Leader : DronePlot :=
  { drone_id := 1, node_id := 1, timestamp := 100, latitude := 5, longitude := 6 }

def c8Follower : DronePlot :=
  { drone_id := 42, node_id := 2, timestamp := 80, latitude := 5, longitude := 6 }

def c9KeptBase : DronePlot :=
  { drone_id := 1, node_id := 1, timestamp := 10, latitude := 5, longitude := 6 }

def c9Erased : DronePlot :=
  { drone_id := 1, node_id := 2, timestamp := 10, latitude := 5, longitude := 6 }

def c10Single : DronePlot :=
  { drone_id := 1, node_id := 1, timestamp := 4, latitude := 2, longitude := 3 }

/-!
Claim theorems.
-/

/-- C1: the spec claims that on a store holding a leader plot
`(drone 1, node 1, t 100)` and a co-located follower `(drone 1, node 2,
t 80)`, with `ds1` first in the priority order, one skew-resolution pass
yields `skew[2] = 20` and the correction pass brings the follower to
timestamp 100.  On the time-sorted store (the order `replicate` establishes
right before `checkSkew`), the pass instead erases the leader plot through
the self-comparison created by `auto j = i++`, records no skew entry at all,
and returns `false`; the retry loop then dereferences past the end on the
now-singleton store, so the correction step is never reached. -/
theorem C1_sorted_scenario_erases_leader :
    checkSkew ["ds1"] [c1Follower, c1Leader] [] = .res false [c1Follower] [] ∧
    resolveAndCorrect ["ds1"] [c1Follower, c1Leader] [] = none := by
  constructor
  · rw [← checkSkewF_eq]; decide
  · rw [← resolveAndCorrectF_eq]; decide

/-- C2: the claim says the Deduplicator removes a record only when a
distinct co-located record with equal corrected timestamp exists, and never
removes a record without a distinct duplicate partner.  `deduplicate`
actually compares only timestamps (never latitude/longitude), and through
the aliased iterator it compares the node-1 record with itself and erases
it, although the only other record has a different timestamp. -/
theorem C2_selfpair_removes_partnerless_record :
    deduplicate ["ds1"] [c2Survivor, c2Removed] = .res false [c2Survivor] ∧
    c2Survivor.timestamp ≠ c2Removed.timestamp := by
  constructor
  · rw [← deduplicateF_eq]; decide
  · decide

/-- C3 counterexample: running the resolver-and-correction step a second
time on an already-resolved store (skew map `{3 ↦ 20}`, no co-located
distinct pairs, so `checkSkew` is a fixpoint) moves the node-3 plot from
timestamp 70 to 90: `correctSkew` re-applies the stored offset on every
call, so the second run does change a timestamp, contrary to the claim. -/
theorem C3_second_pass_shifts_again :
    resolveAndCorrect ["ds9"] [c3A, c3B] [(3, 20)] =
      some ([{ c3A with timestamp := 70 }, c3B], [(3, 20)]) ∧
    resolveAndCorrect ["ds9"] [{ c3A with timestamp := 70 }, c3B] [(3, 20)] =
      some ([{ c3A with timestamp := 90 }, c3B], [(3, 20)]) := by
  constructor <;> (rw [← resolveAndCorrectF_eq]; decide)

/-- C4 counterexample: on a store of four records whose only duplicate pair
(equal timestamps, station `ds1` in the priority order) sits at positions 0
and 2, a `deduplicate` pass removes nothing (the aliased iteration never
compares positions 0 and 2), so the retry loop stops immediately while a
resolvable duplicate pair remains. -/
theorem C4_fixpoint_leaves_resolvable_pair :
    deduplicate ["ds1"] [c4P0, c4P1, c4P2, c4P3] =
      .res true [c4P0, c4P1, c4P2, c4P3] ∧
    IsResolvableDupPair ["ds1"] [c4P0, c4P1, c4P2, c4P3] 0 2 := by
  constructor
  · rw [← deduplicateF_eq]; decide
  · exact ⟨by decide, c4P0, c4P2, rfl, rfl, rfl, Or.inl (by decide)⟩

/-- C5 counterexample: the claim says a duplicate-pair resolution keeps the
record whose station appears earlier in the priority order and only removes
its partner.  Here the store has no two records with equal timestamps at
all, yet `deduplicate` removes the record of station `ds1` — the station
that appears (first) in the priority order — because the aliased iterator
pairs that record with itself. -/
theorem C5_priority_member_removed_without_pair :
    deduplicate ["ds1"] [c5High, c5Removed] = .res false [c5High] ∧
    nodeTag c5Removed.node_id ∈ ["ds1"] ∧
    c5High.timestamp ≠ c5Removed.timestamp := by
  refine ⟨by rw [← deduplicateF_eq]; decide, by decide, by decide⟩

/-- C6 counterexample: with one plot that is `NEW` and one that is `NEW` and
`DUPE`, `queueNewPlots` encodes only the first plot into the batch but
prefixes the batch with count 2 (`count++` runs for every `NEW` plot,
serialized or not), so the 4-byte count does not equal the number of records
actually encoded. -/
theorem C6_count_exceeds_encoded_records :
    queueNewPlots [c6NewPlot, c6DupePlot] =
      some (2, some (bytesLE 4 2 ++ serializePlot c6NewPlot),
        [{ c6NewPlot with flagNew := false },
         { c6DupePlot with flagNew := false }]) ∧
    (bytesLE 4 2 ++ serializePlot c6NewPlot).length = 4 + 1 * plotDataSize := by
  decide

/-- C7 counterexample: a 36-byte batch (4-byte count reading 0, followed by
exactly one 32-byte record) is well-formed in length but its declared count
0 does not match the one record implied by the byte length; the claim says
this raises a framing error, yet `addReplDronePlots` accepts it silently and
adds nothing. -/
theorem C7_count_mismatch_not_rejected :
    addReplDronePlots [] (bytesLE 4 0 ++ List.replicate 32 0) = .ok [] ∧
    (bytesLE 4 0 ++ List.replicate 32 0).length = 36 ∧
    fromLE ((bytesLE 4 0 ++ List.replicate 32 0).take 4) = 0 := by
  decide

/-- C8 counterexample: the claim says a pair is a skew/duplicate candidate
exactly when it agrees on all of `drone_id`, `latitude` and `longitude`.
These two co-located plots have different drone ids (1 and 42), yet
`checkSkew` still treats them as a skew candidate and records
`skew[2] = 20` — `deduplicate`/`checkSkew` never read `drone_id`. -/
theorem C8_skew_recorded_despite_drone_mismatch :
    checkSkew ["ds1"] [c8Leader, c8Follower] [] =
      .res true [{ c8Leader with flagLeader := true }, c8Follower] [(2, 20)] ∧
    c8Leader.drone_id ≠ c8Follower.drone_id := by
  constructor
  · rw [← checkSkewF_eq]; decide
  · decide

/-- C9 counterexample: the claim says a co-located pair with equal
timestamps leaves the store unchanged (the pair is left to the
Deduplicator).  `checkSkew` instead erases the lower-priority record of the
pair right away and returns `false`: the two-record store shrinks to one. -/
theorem C9_equal_ts_pair_erased_in_checkskew :
    checkSkew ["ds1", "ds2"] [c9KeptBase, c9Erased] [] =
      .res false [{ c9KeptBase with flagLeader := true }] [] := by
  rw [← checkSkewF_eq]; decide

/-- C10 counterexample: on a singleton store the inner loop starts with
`j` at the lone record while `i` has been post-incremented to the end
iterator, and both passes dereference it: the `Option`-returning embedding
reaches the `ub` branch, so the claimed safety property fails for odd-sized
stores. -/
theorem C10_singleton_pass_hits_ub :
    checkSkew ["ds1"] [c10Single] [] = .ub ∧
    deduplicate ["ds1"] [c10Single] = .ub := by
  constructor
  · rw [← checkSkewF_eq]; decide
  · rw [← deduplicateF_eq]; decide

/-- C3 amended: a SkewMap entry, once recorded for a node, is never
overwritten -- any entry present before a `checkSkew` pass survives it with
the same value (`std::map::emplace` never replaces).  But there is no
per-cycle correction guard: `correctSkew` adds the stored offset to the
timestamp of every plot of a mapped node on every call, so a second
resolver-and-correction run shifts those timestamps again rather than
leaving them unchanged. -/
theorem C3_entries_persist_and_correction_readds :
    (∀ (order : List String) (s : List DronePlot) (m : SkewMap) (n : Nat)
        (w : Int) (b : Bool) (s' : List DronePlot) (m' : SkewMap),
        skewFind m n = some w → checkSkew order s m = .res b s' m' →
        skewFind m' n = some w) ∧
    (∀ (s : List DronePlot) (m : SkewMap) (k : Nat) (hk : k < s.length)
        (v : Int), skewFind m ((s.get ⟨k, hk⟩).node_id) = some v →
        ∃ hk2 : k < (correctSkew s m).length,
          ((correctSkew s m).get ⟨k, hk2⟩).timestamp =
            (s.get ⟨k, hk⟩).timestamp + v) := by
  constructor
  · intro order s m n w b s' m' hm hc
    exact checkSkewOuter_skew_preserved (s.length + 1) order s m 0 (by omega)
      n w hm b s' m' hc
  · exact correctSkew_shift

/-- Witness for C3: instantiates the amended theorem on the concrete
resolved store of the counterexample. -/
theorem C3_entries_persist_witness :
    skewFind [(3, 20)] 3 = some 20 ∧
    (∃ hk2 : 0 < (correctSkew [c3A] [(3, 20)]).length,
      ((correctSkew [c3A] [(3, 20)]).get ⟨0, hk2⟩).timestamp =
        c3A.timestamp + 20) := by
  constructor
  · exact C3_entries_persist_and_correction_readds.1 ["ds9"] [c3A, c3B] [(3, 20)] 3 20 true
      [c3A, c3B] [(3, 20)] (by decide) (by rw [← checkSkewF_eq]; decide)
  · exact C3_entries_persist_and_correction_readds.2 [c3A] [(3, 20)] 0 (by decide) 20 (by decide)

/-- C10 amended: for stores of even size every record access performed
during one pass of `deduplicate` and `checkSkew` reads a valid live record
-- the `ub` branch of the total embedding is unreachable.  (For odd sizes
the final outer iteration leaves the aliased iterator at the end position
and the first body access through it is out of range, as the singleton
counterexample shows.) -/
theorem C10_even_size_passes_never_ub :
    (∀ (order : List String) (s : List DronePlot) (m : SkewMap),
      Even s.length → checkSkew order s m ≠ .ub) ∧
    (∀ (order : List String) (s : List DronePlot),
      Even s.length → deduplicate order s ≠ .ub) := by
  constructor
  · intro order s m hs
    exact checkSkewOuter_even_ne_ub (s.length + 1) order s m 0 (by omega) hs
      (even_zero)
  · intro order s hs
    exact dedupOuter_even_ne_ub (s.length + 1) order s 0 (by omega) hs
      (even_zero)

/-- Witness for C10: the amended theorem applied to a concrete two-record
store. -/
theorem C10_even_size_witness :
    checkSkew ["ds1"] [c10Single, c10Single] [] ≠ .ub ∧
    deduplicate ["ds1"] [c10Single, c10Single] ≠ .ub := by
  constructor
  · exact C10_even_size_passes_never_ub.1 ["ds1"] [c10Single, c10Single] [] (by decide)
  · exact C10_even_size_passes_never_ub.2 ["ds1"] [c10Single, c10Single] (by decide)

/-- C6 amended: the outbound batch encodes exactly the plots marked `NEW`
and not `DUPE` at selection time, and after selection no plot remains marked
`NEW`; however the 4-byte count prefixed to the batch counts every plot that
was marked `NEW` -- including `DUPE` plots that were skipped during
encoding -- so it equals the number of `NEW` plots, not the number of
records actually encoded. -/
theorem C6_selection_contents_and_count (s : List DronePlot) :
    queueNewPlots s = some
      ((s.filter (fun p => p.flagNew)).length,
       (if (s.filter (fun p => p.flagNew)).length = 0 then none
        else some (bytesLE 4 (s.filter (fun p => p.flagNew)).length ++
          ((s.filter (fun p => p.flagNew && ! p.flagDupe)).map
            serializePlot).flatten)),
       s.map (fun p => if p.flagNew then { p with flagNew := false } else p)) ∧
    ∀ q ∈ s.map (fun p => if p.flagNew then { p with flagNew := false } else p),
      q.flagNew = false := by
  constructor
  · rw [queueNewPlots, queueLoop_spec s [] 0 (by simp)]
    by_cases hc : (s.filter (fun p => p.flagNew)).length = 0 <;> simp [hc]
  · intro q hq
    rcases List.mem_map.mp hq with ⟨p, hp, rfl⟩
    by_cases hn : p.flagNew
    · simp [hn]
    · rw [Bool.not_eq_true] at hn
      simp [hn, Bool.false_eq_true]

/-- Witness for C6: the amended theorem applied to the concrete two-plot
store of the counterexample discharges the membership hypothesis. -/
theorem C6_selection_witness :
    ({ c6NewPlot with flagNew := false } : DronePlot).flagNew = false :=
  (C6_selection_contents_and_count [c6NewPlot, c6DupePlot]).2 { c6NewPlot with flagNew := false } (by decide)

/-- C7 amended: `addReplDronePlots` raises an error exactly when the batch
has fewer than 4 bytes or when its byte length minus 4 is not a multiple of
the record size.  The declared count is never validated against the byte
length: when the count fits the buffer the loop decodes exactly that many
records and appends each to the store, silently ignoring any surplus bytes;
when it does not fit, the decoder reads past the end of the batch (UB). -/
theorem C7_framing_and_unchecked_count (s : List DronePlot) (data : List Nat) :
    (addReplDronePlots s data = .err ↔
      data.length < 4 ∨ (data.length - 4) % plotDataSize ≠ 0) ∧
    (4 ≤ data.length → (data.length - 4) % plotDataSize = 0 →
      (4 + plotDataSize * fromLE (data.take 4) ≤ data.length →
        addReplDronePlots s data = .ok (s ++
          (List.range (fromLE (data.take 4))).map (fun r =>
            { deserializePlot ((data.drop (4 + plotDataSize * r)).take
                plotDataSize) with flagNew := true })) ∧
        (s ++ (List.range (fromLE (data.take 4))).map (fun r =>
            { deserializePlot ((data.drop (4 + plotDataSize * r)).take
                plotDataSize) with flagNew := true })).length =
          s.length + fromLE (data.take 4)) ∧
      (data.length < 4 + plotDataSize * fromLE (data.take 4) →
        addReplDronePlots s data = .ub)) := by
  constructor
  · constructor
    · intro he
      by_contra hno
      push_neg at hno
      rw [addReplDronePlots, if_neg (by omega), if_neg (by simpa using hno.2)]
        at he
      exact addLoop_ne_err _ data 4 s he
    · intro hcond
      rw [addReplDronePlots]
      rcases hcond with hlt | hmod
      · rw [if_pos hlt]
      · by_cases hlt : data.length < 4
        · rw [if_pos hlt]
        · rw [if_neg hlt, if_pos (by simpa using hmod)]
  · intro hlen hmod
    constructor
    · intro hfit
      constructor
      · rw [addReplDronePlots, if_neg (by omega), if_neg (by simpa using hmod)]
        exact addLoop_ok _ data 4 s hfit
      · simp
    · intro hover
      rw [addReplDronePlots, if_neg (by omega), if_neg (by simpa using hmod)]
      have hk : 1 ≤ fromLE (data.take 4) := by
        by_contra hk0
        simp only [plotDataSize] at hover
        omega
      exact addLoop_ub _ data 4 s hover hk
/-- Concrete well-formed batch for the C7 witness: count 1 followed by one
32-byte record. -/
def c7Batch : List Nat := bytesLE 4 1 ++ List.replicate 32 0

/-- Witness for C7: the amended theorem applied to a concrete well-formed
one-record batch with a matching count. -/
theorem C7_framing_witness :
    addReplDronePlots [] c7Batch = .ok
      ([] ++ (List.range (fromLE (c7Batch.take 4))).map (fun r =>
        { deserializePlot ((c7Batch.drop (4 + plotDataSize * r)).take plotDataSize)
          with flagNew := true })) := by
  exact (((C7_framing_and_unchecked_count [] c7Batch).2 (by decide) (by decide)).1 (by decide)).1

/-- C5 amended: when `deduplicate` resolves a pair of distinct records with
equal timestamps, the record whose station tag appears strictly earlier in
the priority order is kept and the other one removed (on ties of the scan,
the record in the `i` role wins), and when neither station appears in the
priority order neither record is removed.  (The aliased iteration
additionally pairs records with themselves, which is what the
counterexample exploits; on a two-record store that self-pair only fires
when the record's own tag is in the order, in which case the scan on the
distinct pair has already fired first.) -/
theorem C5_two_record_tiebreak (a b : DronePlot) (order : List String)
    (hts : a.timestamp = b.timestamp) :
    (nodeTag a.node_id ∉ order → nodeTag b.node_id ∉ order →
      deduplicate order [a, b] = .res true [a, b]) ∧
    (∀ r, deduplicate order [a, b] = .res false r →
      (r = [b] ∧ nodeTag b.node_id ∈ order ∧
        order.indexOf (nodeTag b.node_id) ≤
          order.indexOf (nodeTag a.node_id)) ∨
      (r = [a] ∧ nodeTag a.node_id ∈ order ∧
        order.indexOf (nodeTag a.node_id) <
          order.indexOf (nodeTag b.node_id))) := by
  constructor
  · intro ha hb
    rw [dedup_two order a b hts]
    rw [(prioScan_none_iff order _ _).mpr ⟨hb, ha⟩]
  · intro r hr
    rw [dedup_two order a b hts] at hr
    rcases hscan : prioScan order (nodeTag b.node_id) (nodeTag a.node_id)
      with _ | (_ | _) <;> rw [hscan] at hr
    · cases hr
    · cases hr
      right
      have := (prioScan_some_false_iff order _ _).mp hscan
      exact ⟨rfl, this.1, this.2⟩
    · cases hr
      left
      have := (prioScan_some_true_iff order _ _).mp hscan
      exact ⟨rfl, this.1, this.2⟩

def c5a : DronePlot :=
  { drone_id := 1, node_id := 1, timestamp := 7, latitude := 0, longitude := 0 }
def c5b : DronePlot :=
  { drone_id := 1, node_id := 2, timestamp := 7, latitude := 3, longitude := 4 }

/-- Witness for C5: the amended theorem applied to two equal-timestamp
records with priority order `["ds1", "ds2"]`; station `ds1` is kept. -/
theorem C5_two_record_tiebreak_witness :
    ([c5a] : List DronePlot) = [c5a] ∧ nodeTag c5a.node_id ∈ ["ds1", "ds2"] ∧
      (["ds1", "ds2"] : List String).indexOf (nodeTag c5a.node_id) <
        (["ds1", "ds2"] : List String).indexOf (nodeTag c5b.node_id) ∨
    ([c5a] : List DronePlot) = [c5b] ∧ nodeTag c5b.node_id ∈ ["ds1", "ds2"] ∧
      (["ds1", "ds2"] : List String).indexOf (nodeTag c5b.node_id) ≤
        (["ds1", "ds2"] : List String).indexOf (nodeTag c5a.node_id) := by
  have h := (C5_two_record_tiebreak c5a c5b ["ds1", "ds2"] (by decide)).2 [c5a]
    (by rw [← deduplicateF_eq]; decide)
  tauto

/-- C9 amended: on a co-located pair with equal timestamps, `checkSkew`
never touches the skew map; but instead of leaving the pair to the
Deduplicator it erases one record of the pair (the one losing the priority
scan) and returns `false` whenever either station appears in the priority
order.  Only when neither station appears is the store left unchanged. -/
theorem C9_equal_ts_branch_behavior (a b : DronePlot) (m : SkewMap) (order : List String)
    (hlat : a.latitude = b.latitude) (hlon : a.longitude = b.longitude)
    (hts : a.timestamp = b.timestamp) :
    (∀ r s' m', checkSkew order [a, b] m = .res r s' m' → m' = m) ∧
    (nodeTag a.node_id ∉ order → nodeTag b.node_id ∉ order →
      checkSkew order [a, b] m = .res true [a, b] m) ∧
    (∀ s', checkSkew order [a, b] m = .res false s' m →
      s' = [b] ∨
      s' = [if order.head? = some (nodeTag a.node_id)
            then { a with flagLeader := true } else a]) := by
  refine ⟨?_, ?_, ?_⟩
  · intro r s' m' h
    rw [checkSkew_two_equal order a b m hlat hlon hts] at h
    rcases hscan : prioScan order (nodeTag b.node_id) (nodeTag a.node_id)
      with _ | (_ | _) <;> rw [hscan] at h <;> cases h <;> rfl
  · intro ha hb
    rw [checkSkew_two_equal order a b m hlat hlon hts,
      (prioScan_none_iff order _ _).mpr ⟨hb, ha⟩]
  · intro s' h
    rw [checkSkew_two_equal order a b m hlat hlon hts] at h
    rcases hscan : prioScan order (nodeTag b.node_id) (nodeTag a.node_id)
      with _ | (_ | _) <;> rw [hscan] at h
    · cases h
    · cases h
      right
      rfl
    · cases h
      left
      rfl

def c9a : DronePlot :=
  { drone_id := 1, node_id := 1, timestamp := 10, latitude := 5, longitude := 6 }
def c9b : DronePlot :=
  { drone_id := 1, node_id := 2, timestamp := 10, latitude := 5, longitude := 6 }

/-- Witness for C9: the amended theorem applied to a concrete co-located
equal-timestamp pair whose stations are not in the priority order. -/
theorem C9_equal_ts_branch_witness :
    (([] : SkewMap) = []) ∧
    checkSkew ["ds9"] [c9a, c9b] [] = .res true [c9a, c9b] [] := by
  constructor
  · exact (C9_equal_ts_branch_behavior c9a c9b [] ["ds9"] (by decide) (by decide)
      (by decide)).1 true [c9a, c9b] []
      ((C9_equal_ts_branch_behavior c9a c9b [] ["ds9"] (by decide) (by decide)
        (by decide)).2.1 (by decide) (by decide))
  · exact (C9_equal_ts_branch_behavior c9a c9b [] ["ds9"] (by decide) (by decide)
      (by decide)).2.1 (by decide) (by decide)

/-- C8 amended: a pair the pass examines is treated as a skew/duplicate
candidate exactly when latitude and longitude agree; `drone_id` is never
consulted (the first conjunct records a skew entry for every choice of the
two drone ids).  And the pass does not examine every unordered pair of
distinct plots: in the four-record store whose only co-located pair sits at
positions 0 and 2 (leader at 0, differing timestamps), the pass completes
without recording any skew entry, because the aliased iteration never
compares positions 0 and 2. -/
theorem C8_colocation_ignores_drone_id :
    (∀ (d1 d2 : Nat) (t1 t2 lat lon : Int), t1 ≠ t2 →
      checkSkew ["ds1"]
        [{ drone_id := d1, node_id := 1, timestamp := t1,
           latitude := lat, longitude := lon },
         { drone_id := d2, node_id := 2, timestamp := t2,
           latitude := lat, longitude := lon }] [] =
      .res true
        [{ drone_id := d1, node_id := 1, timestamp := t1,
           latitude := lat, longitude := lon, flagLeader := true },
         { drone_id := d2, node_id := 2, timestamp := t2,
           latitude := lat, longitude := lon }]
        [(2, t1 - t2)]) ∧
    checkSkew ["ds1"] [c8Q0, c8Q1, c8Q2, c8Q3] [] =
      .res true [{ c8Q0 with flagLeader := true }, c8Q1, c8Q2, c8Q3] [] := by
  constructor
  · intro d1 d2 t1 t2 lat lon h
    rw [← checkSkewF_eq]
    simp [checkSkewF, checkSkewOuterF, checkSkewInnerF, leaderCheck,
      markLeader, nodeTag_one, nodeTag_two, prioScan, skewFind, skewEmplace,
      skewAt, skewUpdate, Ne.symm h]
  · rw [← checkSkewF_eq]
    decide

/-- Witness for C8: the amended theorem's universal half applied at drone
ids 1 and 42, timestamps 100 and 80. -/
theorem C8_colocation_witness :
    checkSkew ["ds1"]
      [{ drone_id := 1, node_id := 1, timestamp := 100, latitude := 5,
         longitude := 6 },
       { drone_id := 42, node_id := 2, timestamp := 80, latitude := 5,
         longitude := 6 }] [] =
    .res true
      [{ drone_id := 1, node_id := 1, timestamp := 100, latitude := 5,
         longitude := 6, flagLeader := true },
       { drone_id := 42, node_id := 2, timestamp := 80, latitude := 5,
         longitude := 6 }]
      [(2, 20)] := by
  have h := C8_colocation_ignores_drone_id.1 1 42 100 80 5 6 (by decide)
  simpa using h

/-- C4 amended: every `deduplicate` pass that removes something removes
exactly one record (so the retry loop makes at most N+1 passes whenever no
pass dereferences past the end), and on a store sorted by timestamp a pass
that removes nothing leaves the store unchanged with no resolvable
duplicate pair remaining.  (On unsorted stores a resolvable pair can
survive, as the counterexample shows.) -/
theorem C4_bounded_passes_and_sorted_fixpoint :
    (∀ (order : List String) (s s' : List DronePlot),
      deduplicate order s = .res false s' → s'.length + 1 = s.length) ∧
    (∀ (order : List String) (s s' : List DronePlot), TimeSorted s →
      deduplicate order s = .res true s' →
      s' = s ∧ ∀ a b : Nat, ¬ IsResolvableDupPair order s' a b) := by
  constructor
  · intro order s s' h
    exact dedupOuter_erase_length (s.length + 1) order s 0 (by omega) s' h
  · intro order s s' hsort h
    obtain ⟨hs', hfacts⟩ := dedupOuter_true_facts (s.length + 1) order s 0
      (by omega) s' h
    refine ⟨hs', ?_⟩
    rw [hs']
    have hadj : ∀ (k : Nat) (hk1 : k < s.length) (hk : k + 1 < s.length),
        (s.get ⟨k, hk1⟩).timestamp = (s.get ⟨k + 1, hk⟩).timestamp →
        nodeTag (s.get ⟨k, hk1⟩).node_id ∉ order ∧
        nodeTag (s.get ⟨k + 1, hk⟩).node_id ∉ order := by
      intro k hk1 hk hts
      rcases Nat.even_or_odd k with he | ho
      · have := hfacts k k hk hk1 (by omega) (by simpa using he) (le_refl k)
          hts.symm
        have hni := (prioScan_none_iff order _ _).mp this
        exact ⟨hni.2, hni.1⟩
      · have hk1p : 1 ≤ k := by
          rcases ho with ⟨c, hcc⟩
          omega
        have hqe : k - 1 + 1 = k := by omega
        have hq : k - 1 + 1 < s.length := by omega
        have hgq : s.get ⟨k - 1 + 1, hq⟩ = s.get ⟨k, hk1⟩ :=
          get_idx_congr s _ _ _ _ hqe
        have heven : Even (k - 1 - 0) := by
          rcases ho with ⟨c, hcc⟩
          exact ⟨c, by omega⟩
        have := hfacts (k - 1) (k + 1) hq hk (by omega) heven (by omega)
          (by rw [hgq]; exact hts)
        rw [hgq] at this
        have hni := (prioScan_none_iff order _ _).mp this
        exact hni
    intro a b hpair
    obtain ⟨hne, pa, pb, hga, hgb, hts, hmem⟩ := hpair
    rcases List.get?_eq_some.mp hga with ⟨ha, hpa⟩
    rcases List.get?_eq_some.mp hgb with ⟨hb, hpb⟩
    subst hpa
    subst hpb
    rcases Nat.lt_trichotomy a b with hab | hab | hab
    · have := sorted_no_pair_aux order s hsort hadj a b ha hb hab hts
      rcases hmem with hm | hm
      · exact this.1 hm
      · exact this.2 hm
    · exact hne hab
    · have := sorted_no_pair_aux order s hsort hadj b a hb ha hab hts.symm
      rcases hmem with hm | hm
      · exact this.2 hm
      · exact this.1 hm

def c4w1 : DronePlot :=
  { drone_id := 1, node_id := 1, timestamp := 1, latitude := 0, longitude := 0 }
def c4w2 : DronePlot :=
  { drone_id := 1, node_id := 2, timestamp := 2, latitude := 0, longitude := 0 }

/-- Witness for C4: the amended theorem applied to a concrete removing pass
(store of the C5 counterexample) and to a concrete sorted fixpoint store. -/
theorem C4_bounded_passes_witness :
    (([c5High] : List DronePlot).length + 1 =
      ([c5High, c5Removed] : List DronePlot).length) ∧
    ¬ IsResolvableDupPair ["ds7"] [c4w1, c4w2] 0 1 := by
  constructor
  · exact C4_bounded_passes_and_sorted_fixpoint.1 ["ds1"] [c5High, c5Removed] [c5High]
      (by rw [← deduplicateF_eq]; decide)
  · exact (C4_bounded_passes_and_sorted_fixpoint.2 ["ds7"] [c4w1, c4w2] [c4w1, c4w2]
      (by unfold TimeSorted; decide) (by rw [← deduplicateF_eq]; decide)).2 0 1
